import Mathlib

/-!
Verification of the ign-py image dithering pipeline against its design
specification.

The development shallowly embeds the repository's Python sources in Lean:

* `src/ign.py` — the Interleaved Gradient Noise generator (`generate_ign_noise`);
* `src/colorspace_conversion.py` — sRGB ↔ CIE LAB conversion (irrational-valued,
  modelled as opaque per-pixel transforms where the claims do not depend on the
  numeric values);
* `src/image_converter.py` — the enhanced conversion pipeline (`convert_image`)
  and the hardcoded Windows system palette;
* `src/ign_converter.py` — the legacy single-file pipeline, the batch loop
  (`process_directory`) and the CLI exit code;
* `src/processing.py` — a batch entry point whose file-discovery step
  references an undefined module-level name.

Machine floats are modelled by exact rationals; `np.modf` keeps the sign of its
argument and is translated accordingly.  External PIL primitives (gaussian
blur, palette mapping, median-cut) are opaque collaborator functions passed as
parameters, and the pipeline records which of them it invokes.
-/

/-- Fractional component as computed by `np.modf`: it has the same sign as the
input, so for nonnegative `q` it is `q - ⌊q⌋` and for negative `q` it is the
negated fractional part of `-q`. -/
def pyModf (q : ℚ) : ℚ :=
  if 0 ≤ q then Int.fract q else -(Int.fract (-q))

/-- Seed substitution from `src/ign.py` lines 26–27: a seed of `-1` is replaced
by one random integer drawn from `[0, 1000)`; the draw is made explicit as the
`draw` argument. -/
def resolveSeed (seed : ℤ) (draw : ℕ) : ℤ :=
  if seed = -1 then (draw : ℤ) else seed

/-- Per-coordinate IGN value from `src/ign.py` lines 29–38:
`x' = (x+seed)/scale`, `y' = (y+seed)/scale`,
`f = 0.06711056*x' + 0.00583715*y'`, result `frac(52.9829189 * frac f)`. -/
def ignNoiseAt (scale : ℕ) (seed : ℤ) (x y : ℕ) : ℚ :=
  let xScaled : ℚ := ((x : ℚ) + (seed : ℚ)) / (scale : ℚ)
  let yScaled : ℚ := ((y : ℚ) + (seed : ℚ)) / (scale : ℚ)
  let f : ℚ := 0.06711056 * xScaled + 0.00583715 * yScaled
  pyModf (52.9829189 * pyModf f)

/-- `generate_ign_noise` from `src/ign.py`: the `(height, width)` array of IGN
values, with the seed substitution applied first.  Row `y`, column `x` holds
the value at coordinate `(x, y)`. -/
def generate_ign_noise (width height scale : ℕ) (seed : ℤ) (draw : ℕ) : List (List ℚ) :=
  (List.range height).map (fun y =>
    (List.range width).map (fun x => ignNoiseAt scale (resolveSeed seed draw) x y))

lemma pyModf_of_nonneg {q : ℚ} (h : 0 ≤ q) : pyModf q = Int.fract q := by
  simp [pyModf, h]

lemma pyModf_mem_Ico_of_nonneg {q : ℚ} (h : 0 ≤ q) :
    0 ≤ pyModf q ∧ pyModf q < 1 := by
  rw [pyModf_of_nonneg h]
  exact ⟨Int.fract_nonneg q, Int.fract_lt_one q⟩

lemma ignNoiseAt_mem_Ico {scale : ℕ} {seed : ℤ} (x y : ℕ)
    (hscale : 1 ≤ scale) (hseed : 0 ≤ seed) :
    0 ≤ ignNoiseAt scale seed x y ∧ ignNoiseAt scale seed x y < 1 := by
  have hscaleQ : (0 : ℚ) < (scale : ℚ) := by
    exact_mod_cast Nat.lt_of_lt_of_le Nat.zero_lt_one hscale
  have hseedQ : (0 : ℚ) ≤ (seed : ℚ) := by exact_mod_cast hseed
  have hx : (0 : ℚ) ≤ ((x : ℚ) + (seed : ℚ)) / (scale : ℚ) :=
    div_nonneg (by positivity) (le_of_lt hscaleQ)
  have hy : (0 : ℚ) ≤ ((y : ℚ) + (seed : ℚ)) / (scale : ℚ) :=
    div_nonneg (by positivity) (le_of_lt hscaleQ)
  have hf : (0 : ℚ) ≤ 0.06711056 * (((x : ℚ) + (seed : ℚ)) / (scale : ℚ))
      + 0.00583715 * (((y : ℚ) + (seed : ℚ)) / (scale : ℚ)) := by positivity
  have hinner := pyModf_mem_Ico_of_nonneg hf
  have houter : (0 : ℚ) ≤ 52.9829189 * pyModf (0.06711056 * (((x : ℚ) + (seed : ℚ)) / (scale : ℚ))
      + 0.00583715 * (((y : ℚ) + (seed : ℚ)) / (scale : ℚ))) := by
    have := hinner.1
    positivity
  have := pyModf_mem_Ico_of_nonneg houter
  simpa [ignNoiseAt] using this

lemma ignNoiseAt_origin : ignNoiseAt 1 0 0 0 = 0 := by
  unfold ignNoiseAt
  norm_num
  norm_num [pyModf]

lemma generate_entry (width height scale : ℕ) (seed : ℤ) (draw x y : ℕ)
    (hx : x < width) (hy : y < height) :
    ((generate_ign_noise width height scale seed draw)[y]?.bind fun row => row[x]?)
      = some (ignNoiseAt scale (resolveSeed seed draw) x y) := by
  simp [generate_ign_noise, List.getElem?_map, List.getElem?_range, hx, hy]

/-- Claim C2: for every width, height, scale in 1–8, seed in 0–1000 and grid
coordinate `(x, y)`, the noise field produced by `generate_ign_noise` holds a
value in the half-open interval `[0, 1)` at `(x, y)`; and with seed 0 and
scale 1 the entry at pixel `(0, 0)` is exactly `0`. -/
theorem ign_noise_range_and_origin (width height scale : ℕ) (seed : ℤ) (draw : ℕ)
    (x y : ℕ) (hscale1 : 1 ≤ scale) (hscale8 : scale ≤ 8)
    (hseed0 : 0 ≤ seed) (hseed1000 : seed ≤ 1000)
    (hx : x < width) (hy : y < height) :
    (∀ v : ℚ,
      ((generate_ign_noise width height scale seed draw)[y]?.bind fun row => row[x]?) = some v →
        0 ≤ v ∧ v < 1) ∧
    ((generate_ign_noise width height 1 0 draw)[0]?.bind fun row => row[0]?) = some 0 := by
  constructor
  · intro v hv
    rw [generate_entry width height scale seed draw x y hx hy] at hv
    have hres : 0 ≤ resolveSeed seed draw := by
      have : seed ≠ -1 := by omega
      simp [resolveSeed, this, hseed0]
    have := @ignNoiseAt_mem_Ico scale (resolveSeed seed draw) x y hscale1 hres
    cases hv
    exact this
  · have h0w : 0 < width := Nat.lt_of_le_of_lt (Nat.zero_le x) hx
    have h0h : 0 < height := Nat.lt_of_le_of_lt (Nat.zero_le y) hy
    rw [generate_entry width height 1 0 draw 0 0 h0w h0h]
    have hres : resolveSeed 0 draw = 0 := by norm_num [resolveSeed]
    rw [hres, ignNoiseAt_origin]

/-- Claim C2 witness: the range and origin facts instantiated on a concrete
2×2 grid with scale 1 and seed 0. -/
theorem ign_noise_range_and_origin_witness :
    (∀ v : ℚ,
      ((generate_ign_noise 2 2 1 0 0)[1]?.bind fun row => row[1]?) = some v →
        0 ≤ v ∧ v < 1) ∧
    ((generate_ign_noise 2 2 1 0 0)[0]?.bind fun row => row[0]?) = some 0 :=
  ign_noise_range_and_origin 2 2 1 0 0 1 1 (by decide) (by decide) (by decide)
    (by decide) (by decide) (by decide)

/-- Claim C7: the noise generator is deterministic when `seed ≠ -1` — the random
draw is never consulted, so two calls with the same `(width, height, scale,
seed)` give the same field; and with `seed = -1` the field produced for a draw
below 1000 coincides, for every later draw, with the field of the fixed seed
equal to that draw, which lies in `[0, 1000)`. -/
theorem ign_noise_determinism (width height scale : ℕ) (seed : ℤ) (d1 d2 : ℕ)
    (hne : seed ≠ -1) (hd1 : d1 < 1000) :
    generate_ign_noise width height scale seed d1
      = generate_ign_noise width height scale seed d2 ∧
    ∃ s : ℤ, 0 ≤ s ∧ s < 1000 ∧ ∀ d : ℕ,
      generate_ign_noise width height scale (-1) d1
        = generate_ign_noise width height scale s d := by
  constructor
  · simp [generate_ign_noise, resolveSeed, hne]
  · refine ⟨(d1 : ℤ), by positivity, by exact_mod_cast hd1, fun d => ?_⟩
    have hne2 : (d1 : ℤ) ≠ -1 := by omega
    simp [generate_ign_noise, resolveSeed, hne2]

/-- Claim C7 witness: determinism at a concrete field, seed 5, draws 7 and 9. -/
theorem ign_noise_determinism_witness :
    generate_ign_noise 2 2 1 5 7 = generate_ign_noise 2 2 1 5 9 :=
  (ign_noise_determinism 2 2 1 5 7 9 (by decide) (by decide)).1

/-- A float-valued in-memory image as the pipeline manipulates it: fixed
dimensions and a per-pixel accessor (`px x y c` is channel `c` of the pixel in
column `x`, row `y`). -/
structure QImage where
  width : ℕ
  height : ℕ
  px : ℕ → ℕ → Fin 3 → ℚ

/-- An 8-bit image, as obtained after `astype(np.uint8)`. -/
structure ByteImage where
  width : ℕ
  height : ℕ
  px : ℕ → ℕ → Fin 3 → ℕ

/-- `np.array(img, dtype=np.float32)`: widen a byte image to floats. -/
def toQ (b : ByteImage) : QImage :=
  ⟨b.width, b.height, fun x y c => (b.px x y c : ℚ)⟩

/-- `np.clip(v, lo, hi)`. -/
def npClip (v lo hi : ℚ) : ℚ :=
  min (max v lo) hi

/-- `np.floor(q).astype(np.uint8)` on one value: floor, then wrap into a byte.
In the pipeline the argument is always already clipped to `[0, 255]`, so the
wrap is the identity there. -/
def toUint8 (q : ℚ) : ℕ :=
  (⌊q⌋ % 256).toNat

/-- Per-channel 8-bit quantization of a float image (`src/image_converter.py`
line 135, `src/ign_converter.py` line 153). -/
def floorStage (a : QImage) : ByteImage :=
  ⟨a.width, a.height, fun x y c => toUint8 (a.px x y c)⟩

/-- `np.expand_dims` followed by `np.tile(-, (1, 1, 3))`: the scalar noise field
broadcast to the three channels, so every channel of a pixel receives the same
noise value. -/
def tileNoise (noise : ℕ → ℕ → ℚ) : ℕ → ℕ → Fin 3 → ℚ :=
  fun x y _ => noise x y

/-- The dithering stage (`src/image_converter.py` lines 122–128): add the
rescaled noise `(noise - 0.5) * 2 * strength * 255` to every channel, then clip
the sum into `[0, 255]`. -/
def ditherQ (a : QImage) (noise3 : ℕ → ℕ → Fin 3 → ℚ) (strength : ℚ) : QImage :=
  ⟨a.width, a.height,
    fun x y c => npClip (a.px x y c + (noise3 x y c - 0.5) * 2 * strength * 255) 0 255⟩

/-- Row-major flattening of the float pixel data, used for the whole-image
minimum and maximum of the normalize stage. -/
def pixelValues (a : QImage) : List ℚ :=
  (List.range a.height).flatMap fun y =>
    (List.range a.width).flatMap fun x => [a.px x y 0, a.px x y 1, a.px x y 2]

/-- `ndarray.min()` (0 on an empty buffer, which the pipeline never produces). -/
def qListMin : List ℚ → ℚ
  | [] => 0
  | h :: t => t.foldl min h

/-- `ndarray.max()` (0 on an empty buffer, which the pipeline never produces). -/
def qListMax : List ℚ → ℚ
  | [] => 0
  | h :: t => t.foldl max h

/-- Range normalization (`src/image_converter.py` lines 110–113):
`(a - a.min()) / (a.max() - a.min()) * 255`. -/
def normalizeStage (a : QImage) : QImage :=
  let lo := qListMin (pixelValues a)
  let hi := qListMax (pixelValues a)
  ⟨a.width, a.height, fun x y c => (a.px x y c - lo) / (hi - lo) * 255⟩

/-- The `-p` (`--palette`) CLI choice. -/
inductive PaletteMode where
  | adaptive
  | system
deriving DecidableEq

/-- The `-cs` (`--colorspace`) CLI choice of `src/image_converter.py`. -/
inductive Colorspace where
  | rgb
  | lab
deriving DecidableEq

/-- Tags for the conditional stages a conversion run invokes; the pipeline
models record them so that palette policy can be stated as trace membership. -/
inductive Stage where
  | preblurCall
  | toLabCall
  | fromLabCall
  | quantizeSystemCall
  | medianCutCall
  | postblurCall
deriving DecidableEq

/-- External collaborators of the pipeline.  `gaussianBlur`, `quantizeSystem`
(nearest-entry mapping onto the fixed system palette, `dither=Image.NONE`) and
`medianCut` (`quantize(colors=256, method=Image.MEDIANCUT, dither=Image.NONE)`)
are PIL primitives; `toLab`/`fromLab` are the repository's own
`src/colorspace_conversion.py` transforms, whose irrational-valued arithmetic
is kept opaque here because no settled claim depends on the converted values. -/
structure Collaborators where
  gaussianBlur : ℚ → ByteImage → ByteImage
  toLab : QImage → QImage
  fromLab : QImage → QImage
  quantizeSystem : ByteImage → ByteImage
  medianCut : ByteImage → ByteImage

/-- The configuration accepted by `src/image_converter.py`'s `convert_image`. -/
structure Config where
  noise_scale : ℕ
  strength : ℚ
  blur_radius : ℚ
  palette_mode : PaletteMode
  normalize : Bool
  preblur : ℚ
  seed : ℤ
  twopass : Bool
  colorspace : Colorspace
  use_hash : Bool

/-- The float part of `src/image_converter.py`'s `convert_image` (lines
95–132): optional pre-blur, optional conversion to LAB, optional range
normalization, noise generation with the configured scale and seed, dithering
with clipping, then optional conversion back to RGB.  Its result is the array
that feeds the 8-bit quantization. -/
def preQuantArray (col : Collaborators) (cfg : Config) (draw : ℕ) (input : ByteImage) : QImage :=
  let img1 := if 0 < cfg.preblur then col.gaussianBlur cfg.preblur input else input
  let arr0 := toQ img1
  let arr1 := if cfg.colorspace = Colorspace.lab then col.toLab arr0 else arr0
  let arr2 := if cfg.normalize then normalizeStage arr1 else arr1
  let noise := fun x y => ignNoiseAt cfg.noise_scale (resolveSeed cfg.seed draw) x y
  let dithered := ditherQ arr2 (tileNoise noise) cfg.strength
  if cfg.colorspace = Colorspace.lab then col.fromLab dithered else dithered

/-- The optional second pass (`src/image_converter.py` lines 157–177): fresh
noise at doubled scale and seed offset 100, dithering at `strength * 0.3`,
re-quantization, and another palette mapping only in system mode. -/
def secondPass (col : Collaborators) (cfg : Config) (draw2 : ℕ) (p1 : ByteImage) : ByteImage :=
  let arrB := toQ p1
  let noise2 := fun x y => ignNoiseAt (cfg.noise_scale * 2) (resolveSeed (cfg.seed + 100) draw2) x y
  let ditheredB := ditherQ arrB (tileNoise noise2) (cfg.strength * 0.3)
  let qB := floorStage ditheredB
  if cfg.palette_mode = PaletteMode.system then col.quantizeSystem qB else qB

/-- The collaborator calls `src/image_converter.py`'s `convert_image` makes,
in stage order; each call is conditional on the configuration alone. -/
def coreTrace (cfg : Config) : List Stage :=
  (if 0 < cfg.preblur then [Stage.preblurCall] else []) ++
  (if cfg.colorspace = Colorspace.lab then [Stage.toLabCall, Stage.fromLabCall] else []) ++
  (if cfg.palette_mode = PaletteMode.system then [Stage.quantizeSystemCall] else []) ++
  (if cfg.twopass then
    (if cfg.palette_mode = PaletteMode.system then [Stage.quantizeSystemCall] else [])
   else []) ++
  (if 0 < cfg.blur_radius then [Stage.postblurCall] else [])

/-- The pixel pipeline of `src/image_converter.py`'s `convert_image`: float
stages, floor-to-uint8 quantization, palette mapping in system mode only,
optional second pass, optional final blur.  Returns the final image and the
trace of collaborator calls. -/
def convert_image_core (col : Collaborators) (cfg : Config) (draw draw2 : ℕ)
    (input : ByteImage) : ByteImage × List Stage :=
  let q1 := floorStage (preQuantArray col cfg draw input)
  let p1 := if cfg.palette_mode = PaletteMode.system then col.quantizeSystem q1 else q1
  let p2 := if cfg.twopass then secondPass col cfg draw2 p1 else p1
  let p3 := if 0 < cfg.blur_radius then col.gaussianBlur cfg.blur_radius p2 else p2
  (p3, coreTrace cfg)

/-- The collaborator calls of the legacy `src/ign_converter.py` `convert_image`:
system mode maps onto the fixed palette, adaptive mode invokes median-cut
(line 172), then the optional final blur. -/
def legacyTrace (palette_mode : PaletteMode) (blur_radius : ℚ) : List Stage :=
  (if palette_mode = PaletteMode.system then [Stage.quantizeSystemCall]
   else [Stage.medianCutCall]) ++
  (if 0 < blur_radius then [Stage.postblurCall] else [])

/-- The pixel pipeline of the legacy `src/ign_converter.py` `convert_image`
(lines 108–181): no colorspace conversion, no seed (its private noise generator
takes none, so the coordinates are unshifted), normalization, dithering,
floor-to-uint8, then a palette reduction in **both** modes — median-cut when
the mode is not `system`. -/
def convert_image_legacy (col : Collaborators) (noise_scale : ℕ) (strength blur_radius : ℚ)
    (palette_mode : PaletteMode) (normalize : Bool) (input : ByteImage) :
    ByteImage × List Stage :=
  let arr0 := toQ input
  let noise := fun x y => ignNoiseAt noise_scale 0 x y
  let arr1 := if normalize then normalizeStage arr0 else arr0
  let dithered := ditherQ arr1 (tileNoise noise) strength
  let q1 := floorStage dithered
  let p1 := if palette_mode = PaletteMode.system then col.quantizeSystem q1 else col.medianCut q1
  let p2 := if 0 < blur_radius then col.gaussianBlur blur_radius p1 else p1
  (p2, legacyTrace palette_mode blur_radius)

/-- First ten reserved entries of the hardcoded Windows system palette
(`src/ign_converter.py` lines 21–33, identical in `src/image_converter.py`). -/
def systemReservedFirst : List (ℕ × ℕ × ℕ) :=
  [ (0, 0, 0), (128, 0, 0), (0, 128, 0), (128, 128, 0), (0, 0, 128),
    (128, 0, 128), (0, 128, 128), (192, 192, 192), (192, 220, 192), (166, 202, 240) ]

/-- The 6×6×6 color cube: `r`, then `g`, then `b`, each over `range 6`, entry
`(r*51, g*51, b*51)`. -/
def colorCube : List (ℕ × ℕ × ℕ) :=
  (List.range 6).flatMap fun r =>
    (List.range 6).flatMap fun g =>
      (List.range 6).map fun b => (r * 51, g * 51, b * 51)

/-- Gray level `int(8 + (i * 240 / 19))`.  Python truncates the nonnegative
float toward zero, which is the floor; `8 + (i*240)/19` in natural-number
division is that floor, and `grayShade_eq_floor` below proves the match with
the exact `⌊8 + i·240/19⌋` reading. -/
def grayShade (i : ℕ) : ℕ :=
  8 + i * 240 / 19

/-- The twenty gray entries appended after the cube. -/
def grayShades : List (ℕ × ℕ × ℕ) :=
  (List.range 20).map fun i => (grayShade i, grayShade i, grayShade i)

/-- `middle_colors` from the sources: the cube then the grays. -/
def middle_colors : List (ℕ × ℕ × ℕ) :=
  colorCube ++ grayShades

/-- Last ten reserved entries (`src/ign_converter.py` lines 52–63). -/
def systemReservedLast : List (ℕ × ℕ × ℕ) :=
  [ (255, 251, 240), (160, 160, 164), (128, 128, 128), (255, 0, 0), (0, 255, 0),
    (255, 255, 0), (0, 0, 255), (255, 0, 255), (0, 255, 255), (255, 255, 255) ]

/-- `WINDOWS_SYSTEM_PALETTE`: the full 256-entry table. -/
def WINDOWS_SYSTEM_PALETTE : List (ℕ × ℕ × ℕ) :=
  systemReservedFirst ++ middle_colors ++ systemReservedLast

lemma grayShade_eq_floor (i : ℕ) : (grayShade i : ℤ) = ⌊(8 : ℚ) + (i : ℚ) * 240 / 19⌋ := by
  have h1 : (8 : ℚ) + (i : ℚ) * 240 / 19 = ((8 : ℤ) : ℚ) + ((i * 240 : ℕ) : ℚ) / ((19 : ℕ) : ℚ) := by
    push_cast
    ring
  have h2 : ⌊((i * 240 : ℕ) : ℚ) / ((19 : ℕ) : ℚ)⌋ = ((i * 240) / 19 : ℕ) := by
    rw [← Int.natCast_floor_eq_floor (by positivity), Nat.floor_div_eq_div]
  rw [h1, Int.floor_int_add, h2, grayShade]
  push_cast
  ring

/-- Claim C3: per pixel and channel the dithering stage computes
`clamp(input + (noiseValue - 0.5) * 2 * strength * 255, 0, 255)`, and the
tiled noise hands the same per-pixel value to all three channels; this is
stated for the array the pipeline holds at that point, i.e. after the optional
conversion to LAB, so it covers both colorspaces. -/
theorem dither_formula_and_shared_noise (img : QImage) (toLabF : QImage → QImage)
    (cs : Colorspace) (scale : ℕ) (seed : ℤ) (draw : ℕ) (strength : ℚ)
    (x y : ℕ) (c c2 : Fin 3) :
    ((ditherQ (if cs = Colorspace.lab then toLabF img else img)
        (tileNoise fun u v => ignNoiseAt scale (resolveSeed seed draw) u v) strength).px x y c
      = npClip ((if cs = Colorspace.lab then toLabF img else img).px x y c
          + (ignNoiseAt scale (resolveSeed seed draw) x y - 0.5) * 2 * strength * 255) 0 255)
    ∧ tileNoise (fun u v => ignNoiseAt scale (resolveSeed seed draw) u v) x y c
      = tileNoise (fun u v => ignNoiseAt scale (resolveSeed seed draw) u v) x y c2 :=
  ⟨rfl, rfl⟩

/-- The end-to-end scenario configuration of claim C4: noise scale 1,
strength 0, no blur, adaptive palette, RGB colorspace, every optional stage
off. -/
def endToEndConfig : Config :=
  ⟨1, 0, 0, PaletteMode.adaptive, false, 0, 0, false, Colorspace.rgb, false⟩

/-- A 4×4 image whose pixels are all `(128, 128, 128)`. -/
def gray128 : ByteImage :=
  ⟨4, 4, fun _ _ _ => 128⟩

/-- Claim C4: with `strength = 0` the dithering stage returns every in-range
channel value unchanged; consequently the enhanced pipeline run on the all-128
4×4 image with the scenario configuration produces exactly 128 at every pixel
and channel, whatever the collaborators and noise draws. -/
theorem zero_strength_dither_identity (a : QImage) (noise3 : ℕ → ℕ → Fin 3 → ℚ)
    (x y : ℕ) (c : Fin 3) (h0 : 0 ≤ a.px x y c) (h255 : a.px x y c ≤ 255) :
    (ditherQ a noise3 0).px x y c = a.px x y c ∧
    ∀ (col : Collaborators) (d1 d2 u v : ℕ) (ch : Fin 3),
      ((convert_image_core col endToEndConfig d1 d2 gray128).1).px u v ch = 128 := by
  constructor
  · show npClip (a.px x y c + (noise3 x y c - 0.5) * 2 * 0 * 255) 0 255 = a.px x y c
    rw [npClip]
    rw [mul_zero, zero_mul, add_zero, max_eq_left h0, min_eq_left h255]
  · intro col d1 d2 u v ch
    have key : (preQuantArray col endToEndConfig d1 gray128).px u v ch = 128 := by
      show npClip ((128 : ℚ)
          + (ignNoiseAt 1 (resolveSeed 0 d1) u v - 0.5) * 2 * 0 * 255) 0 255 = 128
      norm_num [npClip]
    show toUint8 ((preQuantArray col endToEndConfig d1 gray128).px u v ch) = 128
    rw [key]
    show (⌊(128 : ℚ)⌋ % 256).toNat = 128
    rw [show ⌊(128 : ℚ)⌋ = 128 by norm_num]
    decide

/-- Claim C4 witness: the zero-strength identity evaluated at pixel `(0,0)`,
channel 0, of the all-128 image. -/
theorem zero_strength_dither_identity_witness :
    (ditherQ (toQ gray128) (fun _ _ _ => 0) 0).px 0 0 0 = (toQ gray128).px 0 0 0 :=
  (zero_strength_dither_identity (toQ gray128) (fun _ _ _ => 0) 0 0 0
    (by norm_num [toQ, gray128]) (by norm_num [toQ, gray128])).1

set_option maxRecDepth 40000 in
/-- Claim C5: the constructed system palette has exactly 256 entries, entry 0
is black and entry 255 white; entries 10–225 are the 6×6×6 cube
`(51r, 51g, 51b)` in nested R,G,B order with components among
`{0, 51, 102, 153, 204, 255}`; entries 226–245 are the twenty grays with level
`⌊8 + i·240/19⌋`. -/
theorem system_palette_table :
    WINDOWS_SYSTEM_PALETTE.length = 256 ∧
    WINDOWS_SYSTEM_PALETTE[0]? = some (0, 0, 0) ∧
    WINDOWS_SYSTEM_PALETTE[255]? = some (255, 255, 255) ∧
    (∀ r g b : Fin 6,
      WINDOWS_SYSTEM_PALETTE[10 + 36 * r.val + 6 * g.val + b.val]?
        = some (51 * r.val, 51 * g.val, 51 * b.val)) ∧
    (∀ r : Fin 6, 51 * r.val ∈ [ 0, 51, 102, 153, 204, 255 ]) ∧
    (∀ i : Fin 20,
      WINDOWS_SYSTEM_PALETTE[226 + i.val]?
        = some (grayShade i.val, grayShade i.val, grayShade i.val)) ∧
    (∀ i : Fin 20, (grayShade i.val : ℤ) = ⌊(8 : ℚ) + (i.val : ℚ) * 240 / 19⌋) :=
  ⟨by decide, by decide, by decide, by decide, by decide, by decide,
    fun i => grayShade_eq_floor i.val⟩

/-- Concrete collaborators for closed pipeline runs: every external primitive
is the identity on the image. -/
def idCollaborators : Collaborators :=
  ⟨fun _ b => b, fun a => a, fun a => a, fun b => b, fun b => b⟩

/-- A concrete 1×1 black input image. -/
def onePix : ByteImage :=
  ⟨1, 1, fun _ _ _ => 0⟩

/-- Claim C6 counterexample: the legacy converter of `src/ign_converter.py`
run in adaptive palette mode does invoke the 256-color median-cut reducer
(line 172), already on a concrete 1×1 input with default-like settings. -/
theorem legacy_adaptive_calls_median_cut :
    Stage.medianCutCall ∈
      (convert_image_legacy idCollaborators 1 0 0 PaletteMode.adaptive false onePix).2 := by
  show Stage.medianCutCall ∈ legacyTrace PaletteMode.adaptive 0
  decide

/-- Claim C6 (amended): in the enhanced pipeline of `src/image_converter.py`,
a non-system palette mode never invokes the system-palette mapping nor any
median-cut reduction, whatever the collaborators, configuration and input; and
absent the second pass and the final blur the output image is exactly the
per-channel floor-to-uint8 of the dithered float array. -/
theorem adaptive_mode_skips_reducer (col : Collaborators) (cfg : Config)
    (d1 d2 : ℕ) (input : ByteImage)
    (hmode : cfg.palette_mode ≠ PaletteMode.system) :
    Stage.quantizeSystemCall ∉ (convert_image_core col cfg d1 d2 input).2 ∧
    Stage.medianCutCall ∉ (convert_image_core col cfg d1 d2 input).2 ∧
    (cfg.twopass = false → cfg.blur_radius ≤ 0 →
      (convert_image_core col cfg d1 d2 input).1
        = floorStage (preQuantArray col cfg d1 input)) := by
  refine ⟨?_, ?_, ?_⟩
  · show Stage.quantizeSystemCall ∉ coreTrace cfg
    by_cases hp : 0 < cfg.preblur <;> by_cases hc : cfg.colorspace = Colorspace.lab <;>
      by_cases ht : cfg.twopass <;> by_cases hb : 0 < cfg.blur_radius <;>
        simp [coreTrace, hmode, hp, hc, ht, hb]
  · show Stage.medianCutCall ∉ coreTrace cfg
    by_cases hp : 0 < cfg.preblur <;> by_cases hc : cfg.colorspace = Colorspace.lab <;>
      by_cases ht : cfg.twopass <;> by_cases hb : 0 < cfg.blur_radius <;>
        simp [coreTrace, hmode, hp, hc, ht, hb]
  · intro ht hb
    simp [convert_image_core, hmode, ht, not_lt.mpr hb]

/-- Claim C6 witness: the amended statement instantiated on the concrete
adaptive scenario configuration. -/
theorem adaptive_mode_skips_reducer_witness :
    Stage.quantizeSystemCall ∉
      (convert_image_core idCollaborators endToEndConfig 0 0 gray128).2 :=
  (adaptive_mode_skips_reducer idCollaborators endToEndConfig 0 0 gray128 (by decide)).1

/-- One iteration of the batch loop of `src/ign_converter.py`'s
`process_directory` (lines 278–287): `convert_image` either returns a final
path — the success counter goes up — or its `except` branch caught the failure
and returned none — the failure counter goes up; either way the loop moves on
to the next file. -/
def batchStep (conv : String → Option String) (acc : ℕ × ℕ) (f : String) : ℕ × ℕ :=
  match conv f with
  | some _ => (acc.1 + 1, acc.2)
  | none => (acc.1, acc.2 + 1)

/-- The `(success_count, fail_count)` pair after the whole batch loop. -/
def batchCounts (conv : String → Option String) (files : List String) : ℕ × ℕ :=
  files.foldl (batchStep conv) (0, 0)

/-- `process_directory` of `src/ign_converter.py` (lines 241–290): early
`False` returns for a missing or non-directory input and for a missing `-o`,
`False` when no supported image was found, otherwise the loop runs over every
discovered file and the function returns whether the failure counter ended at
zero.  `conv` abstracts `convert_image` — which catches its own exceptions, so
`none` is its `(False, None)` outcome — and `files` the sorted glob result. -/
def process_directory (inputExists inputIsDir : Bool) (output_dir : Option String)
    (files : List String) (conv : String → Option String) : Bool :=
  if inputExists = false then false
  else if inputIsDir = false then false
  else match output_dir with
  | none => false
  | some _ =>
    if files.isEmpty then false
    else (batchCounts conv files).2 == 0

/-- The tail of `main` (`src/ign_converter.py` line 445):
`return 0 if success else 1`. -/
def mainExitCode (success : Bool) : ℕ :=
  if success then 0 else 1

lemma batchCounts_foldl (conv : String → Option String) (files : List String) (a b : ℕ) :
    files.foldl (batchStep conv) (a, b)
      = (a + files.countP (fun f => (conv f).isSome),
         b + files.countP (fun f => (conv f).isNone)) := by
  induction files generalizing a b with
  | nil => simp
  | cons f t ih =>
    cases hc : conv f with
    | none =>
      simp only [List.foldl_cons, batchStep, hc, ih, List.countP_cons]
      simp [hc]
      omega
    | some p =>
      simp only [List.foldl_cons, batchStep, hc, ih, List.countP_cons]
      simp [hc]
      omega

/-- Claim C8: in batch mode every file is processed — a failed conversion only
increments the failure counter and the loop continues with the next file — the
two counters count exactly the successful and the failed files,
`process_directory` succeeds exactly when no file failed, and the process exit
code is nonzero if and only if at least one file failed. -/
theorem batch_isolation_and_exit_code (d : String) (files : List String)
    (conv : String → Option String) (hne : files ≠ []) :
    (batchCounts conv files).1 = files.countP (fun f => (conv f).isSome) ∧
    (batchCounts conv files).2 = files.countP (fun f => (conv f).isNone) ∧
    process_directory true true (some d) files conv
      = (files.countP (fun f => (conv f).isNone) == 0) ∧
    (mainExitCode (process_directory true true (some d) files conv) ≠ 0 ↔
      1 ≤ files.countP (fun f => (conv f).isNone)) := by
  have h1 : (batchCounts conv files).1 = files.countP (fun f => (conv f).isSome) := by
    rw [batchCounts, batchCounts_foldl]
    simp
  have h2 : (batchCounts conv files).2 = files.countP (fun f => (conv f).isNone) := by
    rw [batchCounts, batchCounts_foldl]
    simp
  obtain ⟨f, t, rfl⟩ : ∃ f t, files = f :: t := by
    cases files with
    | nil => exact absurd rfl hne
    | cons f t => exact ⟨f, t, rfl⟩
  have hpd : process_directory true true (some d) (f :: t) conv
      = ((f :: t).countP (fun g => (conv g).isNone) == 0) := by
    show (if (f :: t).isEmpty then false else (batchCounts conv (f :: t)).2 == 0)
      = ((f :: t).countP (fun g => (conv g).isNone) == 0)
    rw [h2]
    rfl
  refine ⟨h1, h2, hpd, ?_⟩
  rw [hpd, mainExitCode]
  cases hcp : (f :: t).countP (fun g => (conv g).isNone) with
  | zero => simp
  | succ n => simp

def fileA : String := "a.png"

def fileB : String := "b.png"

def fileC : String := "c.png"

def outDirW : String := "out"

/-- A concrete conversion outcome: `fileC` is the corrupted file, the others
convert fine. -/
def convW : String → Option String :=
  fun s => if s = fileC then none else some s

def filesW : List String :=
  [ fileA, fileB, fileC ]

/-- Claim C8 witness: a batch of two valid images and one corrupted file ends
with counters `(2, 1)` and a nonzero exit code. -/
theorem batch_isolation_and_exit_code_witness :
    (batchCounts convW filesW).1 = 2 ∧ (batchCounts convW filesW).2 = 1 ∧
    mainExitCode (process_directory true true (some outDirW) filesW convW) ≠ 0 := by
  have h := batch_isolation_and_exit_code outDirW filesW convW (by decide)
  refine ⟨?_, ?_, h.2.2.2.mpr (by decide)⟩
  · rw [h.1]
    decide
  · rw [h.2.1]
    decide

/-- Path separator modelling `pathlib.Path`'s `/` operator. -/
def pathSep : String := "/"

/-- The default output suffix. -/
def ignpySuffix : String := "_ignpy.png"

/-- The extension used by hash naming. -/
def pngExt : String := ".png"

/-- Join a directory and a file name. -/
def pathJoin (d n : String) : String :=
  d ++ pathSep ++ n

/-- Output-path determination of `process_single_image` (`src/processing.py`
lines 18–29, identical in `src/ign_converter.py` lines 217–228): with hash
naming the path handed to the converter is the `-o` directory when given, else
the input's parent directory; without it, `<dir>/<stem>_ignpy.png` for that
same choice of directory. -/
def process_single_output_path (use_hash : Bool) (output_dir : Option String)
    (inputParent inputStem : String) : String :=
  if use_hash then
    match output_dir with
    | some d => d
    | none => inputParent
  else
    match output_dir with
    | some d => pathJoin d (inputStem ++ ignpySuffix)
    | none => pathJoin inputParent (inputStem ++ ignpySuffix)

/-- `result_img.tobytes()`: the row-major interleaved pixel bytes of the final
image, the data hashed for `-m` naming. -/
def toBytes (img : ByteImage) : List ℕ :=
  (List.range img.height).flatMap fun y =>
    (List.range img.width).flatMap fun x => [img.px x y 0, img.px x y 1, img.px x y 2]

/-- Final naming step inside `convert_image` (`src/image_converter.py` lines
183–193): with hash naming the file is `<md5-of-final-pixel-bytes>.png` inside
the directory received as `output_path`; otherwise `output_path` itself.  The
MD5 hex digest comes from the external `hashlib`, abstracted as `md5Hex`. -/
def convert_final_output (md5Hex : List ℕ → String) (use_hash : Bool)
    (output_path : String) (result : ByteImage) : String :=
  if use_hash then pathJoin output_path (md5Hex (toBytes result) ++ pngExt)
  else output_path

/-- Claim C9: composing the per-image output-path determination with the final
naming step, a conversion saves to `<dir>/<stem>_ignpy.png` without the hash
flag and to `<dir>/<md5-of-final-pixel-bytes>.png` with it, `<dir>` being the
`-o` directory when given and the input's directory otherwise — for any final
image and any digest function. -/
theorem output_naming (md5Hex : List ℕ → String) (output_dir : Option String)
    (inputParent inputStem : String) (result : ByteImage) :
    convert_final_output md5Hex false
        (process_single_output_path false output_dir inputParent inputStem) result
      = pathJoin (output_dir.getD inputParent) (inputStem ++ ignpySuffix) ∧
    convert_final_output md5Hex true
        (process_single_output_path true output_dir inputParent inputStem) result
      = pathJoin (output_dir.getD inputParent) (md5Hex (toBytes result) ++ pngExt) := by
  cases output_dir <;> simp [convert_final_output, process_single_output_path]

/-- The module-level names `src/processing.py` binds: line 1 imports `Path`,
line 2 imports `convert_image` (and only it), and the module defines its two
functions.  `SUPPORTED_EXTENSIONS` is not among them. -/
def processingModuleNames : List String :=
  [ "Path", "convert_image", "process_single_image", "process_directory" ]

/-- The Python builtins the function body consults. -/
def processingBuiltins : List String :=
  [ "print", "sorted", "len", "str" ]

/-- Name resolution inside `src/processing.py`: module globals, then builtins. -/
def processingResolves (n : String) : Bool :=
  processingModuleNames.contains n || processingBuiltins.contains n

/-- A Python runtime error: a name that resolves nowhere. -/
inductive PyError where
  | nameError (missing : String)
deriving DecidableEq

/-- The name whose lookup decides claim C10. -/
def supportedExtensionsName : String := "SUPPORTED_EXTENSIONS"

/-- `process_directory` of `src/processing.py` (lines 44–96): the early
`False` returns mirror the guards, and the file-discovery loop (line 66) then
evaluates the global name `SUPPORTED_EXTENSIONS` — a `NameError` when it
resolves nowhere; only if it resolved would the function glob, convert each
file and report.  The returned pair is the success flag and the successfully
converted files. -/
def processing_process_directory (inputExists inputIsDir : Bool) (output_dir : Option String)
    (files : List String) (conv : String → Option String) :
    Except PyError (Bool × List String) :=
  if inputExists = false then Except.ok (false, [])
  else if inputIsDir = false then Except.ok (false, [])
  else match output_dir with
  | none => Except.ok (false, [])
  | some _ =>
    if processingResolves supportedExtensionsName = false then
      Except.error (PyError.nameError supportedExtensionsName)
    else if files.isEmpty then Except.ok (false, [])
    else Except.ok ((batchCounts conv files).2 == 0, files.filter (fun f => (conv f).isSome))

/-- Claim C10: every `src/processing.py` batch run that reaches file discovery
— existing input directory and an output directory given — stops with the
unbound-name error on `SUPPORTED_EXTENSIONS`, and no run of this entry point,
whatever its arguments, ever converts an image. -/
theorem processing_batch_name_error (inputExists inputIsDir : Bool) (d : String)
    (files : List String) (conv : String → Option String)
    (h1 : inputExists = true) (h2 : inputIsDir = true) :
    processing_process_directory inputExists inputIsDir (some d) files conv
      = Except.error (PyError.nameError supportedExtensionsName) ∧
    ∀ (ie idir : Bool) (od : Option String) (fs : List String)
      (cv : String → Option String) (b : Bool) (done : List String),
      processing_process_directory ie idir od fs cv = Except.ok (b, done) → done = [] := by
  have hres : processingResolves supportedExtensionsName = false := by decide
  subst h1
  subst h2
  constructor
  · simp [processing_process_directory, hres]
  · intro ie idir od fs cv b done h
    cases ie with
    | false =>
      simp [processing_process_directory] at h
      exact h.2
    | true =>
      cases idir with
      | false =>
        simp [processing_process_directory] at h
        exact h.2
      | true =>
        cases od with
        | none =>
          simp [processing_process_directory] at h
          exact h.2
        | some dd =>
          simp [processing_process_directory, hres] at h

/-- Claim C10 witness: the concrete run with both guards satisfied and an
output directory given ends in the `NameError`. -/
theorem processing_batch_name_error_witness :
    processing_process_directory true true (some outDirW) [] (fun _ => Option.none)
      = Except.error (PyError.nameError supportedExtensionsName) :=
  (processing_batch_name_error true true outDirW [] (fun _ => Option.none) rfl rfl).1
